import Mathlib

/-!
Shallow embedding of the resilient request dispatch layer
(`fetchJSON` in the frontend http module) and proofs about it.

The embedding models one call to `fetchJSON` as a pure function of
 * the options (`timeoutMs`, `retries`, `retryDelayMs`, whether an
   external `AbortSignal` was supplied),
 * the behaviour of that external signal (never fires / already fired
   before the call / fires a given number of ms into a given attempt), and
 * the behaviour of the transport on each attempt (when it settles and
   with what: a response, or a network-level rejection).

Machine-invisible timing is made explicit: each attempt has its own
timeline starting at 0 ms; the deadline timer fires at `timeoutMs`; the
server settles at `ServerEnv.at` (`none` = never).
-/

namespace Http

/-- JSON values, as produced by `res.json()`. -/
inductive Json where
  | null
  | bool (b : Bool)
  | num (n : Int)
  | str (s : String)
  | arr (elems : List Json)
  | obj (fields : List (String × Json))

mutual

/-- JavaScript `String(v)` coercion on JSON values, used by
`String((body as any).error)`. Objects stringify to "[object Object]";
arrays join their elements with commas, rendering `null` entries as "". -/
def jsToString : Json → String
  | .str s => s
  | .num n => toString n
  | .bool b => cond b "true" "false"
  | .null => "null"
  | .obj _ => "[object Object]"
  | .arr xs => String.intercalate "," (arrParts xs)

/-- Element-wise stringification inside an array (`Array.prototype.join`
renders `null` holes as the empty string). -/
def arrParts : List Json → List String
  | [] => []
  | .null :: rest => "" :: arrParts rest
  | j :: rest => jsToString j :: arrParts rest

end

/-- JavaScript truthiness of a JSON value (the `body &&` part of the guard). -/
def jsTruthy : Json → Bool
  | .null => false
  | .bool b => b
  | .num n => n != 0
  | .str s => s != ""
  | .arr _ => true
  | .obj _ => true

/-- `typeof body === "object"` — true for objects, arrays and `null`. -/
def typeofObject : Json → Bool
  | .obj _ => true
  | .arr _ => true
  | .null => true
  | _ => false

/-- `"error" in body`: property presence. Arrays and primitives from
`JSON.parse` carry no `error` property. -/
def hasProp (j : Json) (k : String) : Bool :=
  match j with
  | .obj fs => fs.any (fun p => p.1 == k)
  | _ => false

/-- `(body as any).error`: property access. With duplicate keys,
`JSON.parse` keeps the last occurrence, hence the reversed lookup. -/
def getProp (j : Json) (k : String) : Json :=
  match j with
  | .obj fs => ((fs.reverse.find? (fun p => p.1 == k)).map Prod.snd).getD .null
  | _ => .null

/-- Why the signal handed to the transport fired. The dispatcher itself
never sees this tag: it only observes `err.name === "AbortError"`. -/
inductive AbortCause where
  | timeout
  | caller
deriving DecidableEq

/-- The errors that can reach the dispatcher's `catch` (or bypass it, for
the 2xx-decode rejection, with the same observable effect). -/
inductive JsErr where
  /-- a rejection with `name === "AbortError"` -/
  | abortError (cause : AbortCause)
  /-- the `HttpError` thrown on a non-2xx response -/
  | httpError (status : Nat) (msg : String) (body : Option Json)
  /-- the `SyntaxError` from `res.json()` rejecting on a 2xx body -/
  | syntaxError
  /-- any other transport rejection, e.g. a network `TypeError` -/
  | otherError (name : String)

/-- `err?.name` as inspected by the dispatcher. -/
def errName : JsErr → String
  | .abortError _ => "AbortError"
  | .httpError _ _ _ => "HttpError"
  | .syntaxError => "SyntaxError"
  | .otherError n => n

/-- The error classifier:
`isAbort || (err instanceof HttpError && [502, 503, 504].includes(err.status))`. -/
def isTransient (e : JsErr) : Bool :=
  (errName e == "AbortError")
    || (match e with
        | .httpError s _ _ => s == 502 || s == 503 || s == 504
        | _ => false)

/-- A settled transport response: status, status text, and the outcome of
`res.json()` on its body (`none` = the body does not parse as JSON). -/
structure Resp where
  status : Nat
  statusText : String
  bodyJson : Option Json

/-- `res.ok`: status in the inclusive range 200–299. -/
def respOk (r : Resp) : Bool :=
  decide (200 ≤ r.status) && decide (r.status ≤ 299)

/-- Message attached to the `HttpError` built for a non-2xx response:
the body's `error` field when the body is JSON, truthy, of object type and
has that property; otherwise `"HTTP <status> <statusText>"` (also when the
body fails to decode at all). -/
def nonOkMessage (r : Resp) : String :=
  match r.bodyJson with
  | some b =>
      if jsTruthy b && typeofObject b && hasProp b "error" then
        jsToString (getProp b "error")
      else
        "HTTP " ++ toString r.status ++ " " ++ r.statusText
  | none => "HTTP " ++ toString r.status ++ " " ++ r.statusText

/-- How the transport settles an attempt, when it settles at all. -/
inductive ServerReply where
  | reply (r : Resp)
  | netFail (name : String)

/-- What one attempt ends in, seen from inside the `try` block. -/
inductive AttemptOutcome where
  | success (v : Json)
  | failure (e : JsErr)

/-- Processing of a settled transport call: 2xx decodes the body (a decode
rejection surfaces as the `SyntaxError`); non-2xx builds the `HttpError`
with `nonOkMessage` and the decoded body (or `none`); a network-level
rejection is passed through. -/
def processDelivered : ServerReply → AttemptOutcome
  | .netFail n => .failure (.otherError n)
  | .reply r =>
      if respOk r then
        match r.bodyJson with
        | some v => .success v
        | none => .failure .syntaxError
      else
        .failure (.httpError r.status (nonOkMessage r) r.bodyJson)

/-- Transport behaviour on one attempt: `settlesAt` is the instant (ms
into the attempt) at which the transport would settle (`none` = it never
settles), and `reply` is what it settles with. -/
structure ServerEnv where
  settlesAt : Option Nat
  reply : ServerReply

/-- Behaviour of the caller's external `AbortSignal` across the call. -/
inductive ExtBehavior where
  /-- never fires during the call (or no signal was supplied) -/
  | quiet
  /-- already in the fired state before `fetchJSON` is invoked -/
  | preFired
  /-- fires `t` ms after attempt `k` begins (attempts are numbered
  from 1); if attempt `k` settles before `t`, the fire lands after that
  attempt — before the next attempt starts, or after the promise settles
  when attempt `k` was the last -/
  | firesAt (k : Nat) (t : Nat)

/-- Has the external signal already fired when attempt `i` starts?
This is the `signal.aborted` test at the top of the loop body. -/
def extFiredBefore : ExtBehavior → Nat → Bool
  | .quiet, _ => false
  | .preFired, _ => true
  | .firesAt k _, i => decide (k < i)

/-- The instant within attempt `i` at which the external signal fires,
if it fires during that attempt. -/
def extFireTime : ExtBehavior → Nat → Option Nat
  | .firesAt k t, i => if k == i then some t else none
  | _, _ => none

/-- When — and why — the signal actually handed to `fetch` fires.

Mirrors the wiring in the source: `controller` is aborted by the deadline
timer at `timeoutMs`; but when an external signal is supplied, `fetch`
receives `mergedSignal.signal` instead, where `mergedSignal` is a fresh
`AbortController` aborted only by `onAbort` (immediately if
`signal.aborted`, else when the external signal fires). The deadline timer
keeps aborting the now-unused `controller`, so it never reaches the
transport in that case. -/
def fetchSignalFires (hasSignal : Bool) (timeoutMs : Nat) (ext : ExtBehavior)
    (attempt : Nat) : Option (Nat × AbortCause) :=
  if hasSignal then
    if extFiredBefore ext attempt then some (0, .caller)
    else
      match extFireTime ext attempt with
      | some t => some (t, .caller)
      | none => none
  else
    some (timeoutMs, .timeout)

/-- What the `await fetch(...)` settles to. -/
inductive FetchResult where
  | delivered (rep : ServerReply)
  | aborted (c : AbortCause)
  /-- neither the signal nor the transport ever settles the attempt -/
  | hangs

/-- Race between the transport and the signal handed to `fetch`: the
response wins only if it arrives strictly before the signal fires; a
signal already fired at time 0 (pre-aborted) rejects immediately. -/
def runFetch (sig : Option (Nat × AbortCause)) (srv : ServerEnv) : FetchResult :=
  match sig, srv.settlesAt with
  | none, none => .hangs
  | none, some _ => .delivered srv.reply
  | some (_, c), none => .aborted c
  | some (a, c), some r => if r < a then .delivered srv.reply else .aborted c

/-- One attempt, as seen by the loop: `none` when the attempt never
settles, otherwise its outcome after response processing. -/
def attemptResult (timeoutMs : Nat) (hasSignal : Bool) (ext : ExtBehavior)
    (srv : Nat → ServerEnv) (attempt : Nat) : Option AttemptOutcome :=
  match runFetch (fetchSignalFires hasSignal timeoutMs ext attempt) (srv attempt) with
  | .hangs => none
  | .aborted c => some (.failure (.abortError c))
  | .delivered rep => some (processDelivered rep)

/-- Whether attempt `i` registers an `abort` listener on the external
signal: `signal.addEventListener("abort", onAbort, { once: true })` runs
iff a signal was supplied and `signal.aborted` is still false. -/
def addsListener (hasSignal : Bool) (ext : ExtBehavior) (attempt : Nat) : Bool :=
  hasSignal && !(extFiredBefore ext attempt)

/-- What the settled call surfaces to its caller. -/
inductive SurfacedErr where
  /-- a plain `new Error(msg)` -/
  | generic (msg : String)
  /-- the caught error rethrown unchanged -/
  | raised (e : JsErr)

/-- Final state of the promise returned by `fetchJSON`. -/
inductive CallResult where
  | success (v : Json)
  | error (e : SurfacedErr)
  /-- the promise never settles -/
  | neverSettles

/-- Observable trace of one `fetchJSON` call: its result, how many
transport (`fetch`) calls were issued, how many deadline timers were
started, how many of those are still pending once the promise settles,
and how many `abort` listeners were registered on the external signal. -/
structure CallTrace where
  result : CallResult
  fetchCalls : Nat
  timersStarted : Nat
  timersPending : Nat
  listenersAdded : Nat

/-- The user-visible message of the error thrown for an abort. -/
def timeoutMessage : String := "Request timed out. Check the server and try again."

/-- The final rethrow: `if (isAbort) throw new Error("Request timed out. …");
throw err;`. -/
def surface (e : JsErr) : SurfacedErr :=
  if errName e == "AbortError" then .generic timeoutMessage else .raised e

/-- The attempt loop. `fuel` is the number of retries still allowed;
`fetchJSON` enters with `fuel = retries` and `attempt = 1`, so the
invariant `attempt + fuel = retries + 1` holds throughout and the
`fuel = 0` fallback inside the retry branch is unreachable (there
`attempt = retries + 1`, so `attempt ≤ retries` already failed).

Per attempt: one timer is started (`setTimeout`) and one `fetch` call is
issued; `finally { clearTimeout(timeout) }` runs on every path that
settles or continues the loop, so no timer is left pending at settle; a
listener is registered per `addsListener`. On failure, the loop retries
iff `attempt <= retries && transient`, else rethrows via `surface`. -/
def go (timeoutMs retries : Nat) (hasSignal : Bool) (ext : ExtBehavior)
    (srv : Nat → ServerEnv) : Nat → Nat → CallTrace
  | fuel, attempt =>
    let added : Nat := if addsListener hasSignal ext attempt then 1 else 0
    match attemptResult timeoutMs hasSignal ext srv attempt with
    | none =>
        { result := .neverSettles, fetchCalls := 1, timersStarted := 1,
          timersPending := 0, listenersAdded := added }
    | some (.success v) =>
        { result := .success v, fetchCalls := 1, timersStarted := 1,
          timersPending := 0, listenersAdded := added }
    | some (.failure e) =>
        if attempt ≤ retries ∧ isTransient e = true then
          match fuel with
          | 0 =>
              { result := .error (surface e), fetchCalls := 1, timersStarted := 1,
                timersPending := 0, listenersAdded := added }
          | f + 1 =>
              let rest := go timeoutMs retries hasSignal ext srv f (attempt + 1)
              { result := rest.result,
                fetchCalls := rest.fetchCalls + 1,
                timersStarted := rest.timersStarted + 1,
                timersPending := rest.timersPending,
                listenersAdded := rest.listenersAdded + added }
        else
          { result := .error (surface e), fetchCalls := 1, timersStarted := 1,
            timersPending := 0, listenersAdded := added }

/-- One call to `fetchJSON`, as a function of the options and the
environment. `retryDelayMs` only lengthens the pause between attempts
(`await sleep(retryDelayMs)`) and is observationally inert here. -/
def fetchJSON (timeoutMs retries retryDelayMs : Nat) (hasSignal : Bool)
    (ext : ExtBehavior) (srv : Nat → ServerEnv) : CallTrace :=
  let _ := retryDelayMs
  go timeoutMs retries hasSignal ext srv retries 1

/-- Whether the external signal has fired by the instant the call settles,
for a run that made `n` attempts. `preFired` fired before the call;
`quiet` never fires; `firesAt k _` has fired iff `k < n` (the fire
preceded the start of attempt `k + 1`) or `k = n` and the final attempt's
race was won by the caller's abort — when the final attempt's response
arrives strictly before the scheduled fire, the signal fires only after
the promise has settled. -/
def extFiredBySettle (timeoutMs : Nat) (hasSignal : Bool) (ext : ExtBehavior)
    (srv : Nat → ServerEnv) (n : Nat) : Bool :=
  match ext with
  | .quiet => false
  | .preFired => true
  | .firesAt k _ =>
      decide (k < n) ||
      (decide (k = n) &&
        (match runFetch (fetchSignalFires hasSignal timeoutMs ext n) (srv n) with
         | .aborted .caller => true
         | _ => false))

/-- Abort listeners still registered on the external signal at the moment
the call settles: `{ once: true }` removes every pending listener when the
signal fires, and nothing else ever removes one — so none remain iff the
signal has fired by settle, and otherwise every listener added remains. -/
def listenersRemaining (timeoutMs : Nat) (hasSignal : Bool) (ext : ExtBehavior)
    (srv : Nat → ServerEnv) (tr : CallTrace) : Nat :=
  if extFiredBySettle timeoutMs hasSignal ext srv tr.fetchCalls then 0
  else tr.listenersAdded

/-- Headers object built for every attempt:
`{ "Content-Type": "application/json", ...headers, ...(init?.headers || {}) }`,
later spreads overriding earlier keys. -/
def requestHeaders (optHeaders initHeaders : List (String × String)) :
    List (String × String) :=
  (("Content-Type", "application/json") :: optHeaders) ++ initHeaders

/-- Key lookup in a JavaScript object built by spreading: the last
binding of a key wins. -/
def headerValue (hs : List (String × String)) (k : String) : Option String :=
  (hs.reverse.find? (fun p => p.1 == k)).map Prod.snd

/-- The header merge is recomputed identically inside every loop
iteration; this names the headers attached to a given attempt's request. -/
def attemptRequestHeaders (optHeaders initHeaders : List (String × String))
    (attempt : Nat) : List (String × String) :=
  let _ := attempt
  requestHeaders optHeaders initHeaders

/-! ## Helper lemmas about the attempt loop -/

/-- `finally { clearTimeout(timeout) }` runs on every path, so no deadline
timer is pending once the loop stops. -/
theorem go_timersPending (t r : Nat) (hs : Bool) (ext : ExtBehavior)
    (srv : Nat → ServerEnv) :
    ∀ fuel attempt, (go t r hs ext srv fuel attempt).timersPending = 0 := by
  intro fuel
  induction fuel with
  | zero =>
    intro attempt
    rw [go]
    split
    · rfl
    · rfl
    · split
      · rfl
      · rfl
  | succ f ih =>
    intro attempt
    rw [go]
    split
    · rfl
    · rfl
    · split
      · simp [ih]
      · rfl

/-- The loop issues at most `fuel + 1` transport calls. -/
theorem go_fetchCalls_le (t r : Nat) (hs : Bool) (ext : ExtBehavior)
    (srv : Nat → ServerEnv) :
    ∀ fuel attempt, (go t r hs ext srv fuel attempt).fetchCalls ≤ fuel + 1 := by
  intro fuel
  induction fuel with
  | zero =>
    intro attempt
    rw [go]
    split
    · simp
    · simp
    · split
      · simp
      · simp
  | succ f ih =>
    intro attempt
    rw [go]
    split
    · simp
    · simp
    · split
      · have := ih (attempt + 1)
        simp only []
        omega
      · simp

/-- If every attempt from the current one on is aborted, the loop spends
its whole budget and surfaces the generic timeout `Error`: an `AbortError`
is always classified transient and, once the budget is exhausted, the
final rethrow replaces it with `new Error(timeoutMessage)`. -/
theorem go_allAborted (t r : Nat) (hs : Bool) (ext : ExtBehavior)
    (srv : Nat → ServerEnv) :
    ∀ fuel attempt, attempt + fuel = r + 1 →
    (∀ i, attempt ≤ i →
      ∃ c, attemptResult t hs ext srv i = some (.failure (.abortError c))) →
    (go t r hs ext srv fuel attempt).result = .error (.generic timeoutMessage) ∧
    (go t r hs ext srv fuel attempt).fetchCalls = fuel + 1 ∧
    (go t r hs ext srv fuel attempt).timersStarted = fuel + 1 := by
  intro fuel
  induction fuel with
  | zero =>
    intro attempt hinv habort
    obtain ⟨c, hc⟩ := habort attempt le_rfl
    rw [go, hc]
    dsimp only
    have hgt : ¬ (attempt ≤ r ∧ isTransient (.abortError c) = true) := by
      intro ⟨h1, _⟩; omega
    rw [if_neg hgt]
    refine ⟨?_, rfl, rfl⟩
    simp [surface, errName]
  | succ f ih =>
    intro attempt hinv habort
    obtain ⟨c, hc⟩ := habort attempt le_rfl
    rw [go, hc]
    dsimp only
    have hle : attempt ≤ r ∧ isTransient (.abortError c) = true :=
      ⟨by omega, rfl⟩
    rw [if_pos hle]
    dsimp only
    have hrec := ih (attempt + 1) (by omega) (fun i hi => habort i (by omega))
    exact ⟨hrec.1, by omega, by omega⟩

/-- With an external signal supplied and never firing, every attempt
registers exactly one abort listener, so the count of listeners added
equals the count of attempts made. -/
theorem go_listeners_quiet (t r : Nat) (srv : Nat → ServerEnv) :
    ∀ fuel attempt, (go t r true .quiet srv fuel attempt).listenersAdded =
      (go t r true .quiet srv fuel attempt).fetchCalls := by
  intro fuel
  induction fuel with
  | zero =>
    intro attempt
    rw [go]
    split
    · rfl
    · rfl
    · split
      · rfl
      · rfl
  | succ f ih =>
    intro attempt
    rw [go]
    split
    · rfl
    · rfl
    · split
      · have h := ih (attempt + 1)
        simp only [addsListener, extFiredBefore, Bool.not_false, Bool.and_true, if_true]
        omega
      · rfl

/-- If every attempt before `a` fails transiently and attempt `a` itself
fails with the 2xx-decode rejection, the loop runs exactly up to attempt
`a` and rethrows the `SyntaxError`: the decode failure is never
classified transient, so it stops the loop at its first occurrence, for
every remaining budget. -/
theorem go_syntaxError_at (t r : Nat) (hs : Bool) (ext : ExtBehavior)
    (srv : Nat → ServerEnv) (a : Nat) :
    ∀ fuel attempt, attempt + fuel = r + 1 → attempt ≤ a → a ≤ r + 1 →
    (∀ i, attempt ≤ i → i < a →
      ∃ e, attemptResult t hs ext srv i = some (.failure e) ∧ isTransient e = true) →
    attemptResult t hs ext srv a = some (.failure .syntaxError) →
    (go t r hs ext srv fuel attempt).result = .error (.raised .syntaxError) ∧
    (go t r hs ext srv fuel attempt).fetchCalls = a - attempt + 1 := by
  intro fuel
  induction fuel with
  | zero =>
    intro attempt hinv hle ha hprev hmal
    have heq : attempt = a := by omega
    subst heq
    rw [go, hmal]
    dsimp only
    rw [if_neg (by intro ⟨_, h2⟩; simp [isTransient, errName] at h2)]
    refine ⟨rfl, ?_⟩
    show 1 = attempt - attempt + 1
    omega
  | succ f ih =>
    intro attempt hinv hle ha hprev hmal
    by_cases hcase : attempt = a
    · subst hcase
      rw [go, hmal]
      dsimp only
      rw [if_neg (by intro ⟨_, h2⟩; simp [isTransient, errName] at h2)]
      refine ⟨rfl, ?_⟩
      show 1 = attempt - attempt + 1
      omega
    · have hlt : attempt < a := by omega
      obtain ⟨e, he, htrans⟩ := hprev attempt le_rfl hlt
      rw [go, he]
      dsimp only
      rw [if_pos ⟨by omega, htrans⟩]
      dsimp only
      have hrec := ih (attempt + 1) (by omega) (by omega) ha
        (fun i hi hi2 => hprev i (by omega) hi2) hmal
      exact ⟨hrec.1, by omega⟩

/-- `find?` over an appended list looks in the first part first. -/
theorem find?_append_pairs (p : (String × String) → Bool) :
    ∀ l₁ l₂ : List (String × String), (l₁ ++ l₂).find? p =
      match l₁.find? p with
      | some x => some x
      | none => l₂.find? p := by
  intro l₁
  induction l₁ with
  | nil => intro l₂; rfl
  | cons x xs ih =>
    intro l₂
    by_cases h : p x
    · simp [List.find?_cons, h]
    · simp [List.find?_cons, h, ih]

/-- Last-binding-wins lookup distributes over object spread: a key bound
in the later (right) part shadows any binding in the earlier part. -/
theorem headerValue_append (a b : List (String × String)) (k : String) :
    headerValue (a ++ b) k =
      match headerValue b k with
      | some v => some v
      | none => headerValue a k := by
  unfold headerValue
  rw [List.reverse_append, find?_append_pairs]
  cases b.reverse.find? (fun p => p.1 == k) with
  | none => rfl
  | some x => rfl

/-- A JSON value with an `error` property is an object, hence truthy and
of `typeof` "object". -/
theorem hasProp_truthy (b : Json) (h : hasProp b "error" = true) :
    jsTruthy b = true ∧ typeofObject b = true := by
  cases b <;> simp_all [hasProp, jsTruthy, typeofObject]

/-! ## Claim theorems -/

/-- C1: for every call, the number of transport (`fetch`) calls issued
before the returned promise settles is at most `retries + 1`. (Attempts
are issued strictly sequentially by construction of the loop: the `n+1`-st
transport call appears only inside the recursive continuation taken after
the `n`-th attempt has settled.) -/
theorem fetchJSON_attempt_budget (t r d : Nat) (hs : Bool) (ext : ExtBehavior)
    (srv : Nat → ServerEnv) : (fetchJSON t r d hs ext srv).fetchCalls ≤ r + 1 :=
  go_fetchCalls_le t r hs ext srv r 1

/-- C2: refuted as stated. With `retries = 1`, an external signal that
fires 5 ms into attempt 1 while the transport is in flight does NOT
produce a distinguishable cancellation failure and DOES trigger a further
transport attempt: the abort is classified transient, a second `fetch` is
issued, and the call settles with the generic timeout-message `Error`. -/
theorem callerCancel_retried_and_surfaced_as_timeout :
    fetchJSON 15000 1 600 true (.firesAt 1 5)
      (fun _ => ⟨none, .netFail "TypeError"⟩) =
    { result := .error (.generic timeoutMessage), fetchCalls := 2,
      timersStarted := 2, timersPending := 0, listenersAdded := 1 } := rfl

/-- C3: refuted as stated. With `retries = 1` and the external signal
already fired before the call, the dispatcher still issues 2 transport
calls (each immediately rejected with `AbortError`), still starts 2
deadline timers, and fails with the generic timeout-message `Error`
rather than a cancellation failure. -/
theorem preFired_signal_still_fetches :
    fetchJSON 15000 1 600 true .preFired
      (fun _ => ⟨some 0, .reply ⟨200, "OK", some .null⟩⟩) =
    { result := .error (.generic timeoutMessage), fetchCalls := 2,
      timersStarted := 2, timersPending := 0, listenersAdded := 0 } := rfl

/-- C4: refuted as stated. When an external signal is supplied but never
fires, the signal handed to the transport never fires at all — the
deadline timer aborts the orphaned `controller`, not `mergedSignal` — so
with `timeoutMs = 50` a response arriving at 1000 ms is still delivered
and the call succeeds instead of being aborted at the deadline. -/
theorem deadline_not_merged_with_external_signal :
    fetchSignalFires true 50 .quiet 1 = none ∧
    (fetchJSON 50 0 600 true .quiet
      (fun _ => ⟨some 1000, .reply ⟨200, "OK", some (.bool true)⟩⟩)).result =
      .success (.bool true) := ⟨rfl, rfl⟩

/-- C5: refuted as stated. The classifier keys on `err.name ===
"AbortError"` alone, so an abort caused by the caller's cancellation is
classified transient exactly like a deadline timeout; with `retries = 2`
a caller-cancelled attempt is retried until the budget is exhausted
(3 transport calls), where the claim requires it never be retried. -/
theorem classifier_treats_caller_abort_transient :
    isTransient (.abortError .caller) = true ∧
    (fetchJSON 15000 2 600 true (.firesAt 1 5)
      (fun _ => ⟨none, .netFail "TypeError"⟩)).fetchCalls = 3 := ⟨rfl, rfl⟩

/-- C6: for every non-2xx response, the thrown `HttpError` carries the
decoded body and a message equal to the body's `error` field when the
body is a JSON object with that property, and `"HTTP <status>
<statusText>"` otherwise — including when the body fails to decode at
all, in which case the body is `undefined` but the `HttpError` is still
produced (no other exception escapes this construction). -/
theorem nonOk_message_spec (r : Resp) (hok : respOk r = false) :
    processDelivered (.reply r) =
      .failure (.httpError r.status (nonOkMessage r) r.bodyJson) ∧
    (∀ b s, r.bodyJson = some b → hasProp b "error" = true →
      getProp b "error" = .str s → nonOkMessage r = s) ∧
    (∀ b, r.bodyJson = some b → hasProp b "error" = false →
      nonOkMessage r = "HTTP " ++ toString r.status ++ " " ++ r.statusText) ∧
    (r.bodyJson = none →
      nonOkMessage r = "HTTP " ++ toString r.status ++ " " ++ r.statusText) := by
  refine ⟨by simp [processDelivered, hok], ?_, ?_, ?_⟩
  · intro b s hb hprop hstr
    obtain ⟨ht, hto⟩ := hasProp_truthy b hprop
    unfold nonOkMessage
    rw [hb]
    dsimp only
    rw [if_pos (by simp [ht, hto, hprop])]
    rw [hstr]
    rfl
  · intro b hb hprop
    unfold nonOkMessage
    rw [hb]
    dsimp only
    rw [if_neg (by simp [hprop])]
  · intro hb
    unfold nonOkMessage
    rw [hb]

/-- Witness for C6: a 404 whose body is `{"error": "not found"}` yields
message exactly "not found". -/
theorem nonOk_message_spec_witness :
    respOk ⟨404, "Not Found", some (.obj [("error", .str "not found")])⟩ = false ∧
    nonOkMessage ⟨404, "Not Found", some (.obj [("error", .str "not found")])⟩ =
      "not found" :=
  ⟨rfl, (nonOk_message_spec ⟨404, "Not Found",
    some (.obj [("error", .str "not found")])⟩ rfl).2.1 _ "not found" rfl rfl rfl⟩

/-- C7: with no external signal supplied and a transport that never
settles within `timeoutMs` on any attempt, the call issues exactly
`retries + 1` transport attempts and fails with the `Error` whose message
is "Request timed out. Check the server and try again.". -/
theorem all_timeout_surfaces_timeout_error (t r d : Nat) (ext : ExtBehavior)
    (srv : Nat → ServerEnv)
    (hslow : ∀ i r', (srv i).settlesAt = some r' → t ≤ r') :
    (fetchJSON t r d false ext srv).result = .error (.generic timeoutMessage) ∧
    (fetchJSON t r d false ext srv).fetchCalls = r + 1 := by
  have habort : ∀ i, 1 ≤ i →
      ∃ c, attemptResult t false ext srv i = some (.failure (.abortError c)) := by
    intro i _
    refine ⟨.timeout, ?_⟩
    have hsig : fetchSignalFires false t ext i = some (t, .timeout) := rfl
    unfold attemptResult
    rw [hsig]
    unfold runFetch
    cases hsa : (srv i).settlesAt with
    | none => rfl
    | some r' =>
      dsimp only
      rw [if_neg (by have := hslow i r' hsa; omega)]
  have h := go_allAborted t r false ext srv r 1 (by omega) habort
  exact ⟨h.1, h.2.1⟩

/-- Witness for C7: `retries = 2`, `timeoutMs = 50`, transport never
settles — 3 attempts, then the timeout-message `Error`. -/
theorem all_timeout_witness :
    (fetchJSON 50 2 600 false .quiet (fun _ => ⟨none, .netFail "TypeError"⟩)).result =
      .error (.generic timeoutMessage) ∧
    (fetchJSON 50 2 600 false .quiet (fun _ => ⟨none, .netFail "TypeError"⟩)).fetchCalls = 3 :=
  all_timeout_surfaces_timeout_error 50 2 600 .quiet
    (fun _ => ⟨none, .netFail "TypeError"⟩) (fun _ _ h => Option.noConfusion h)

/-- C8 counterexample: a call that settles successfully on its first
attempt with a supplied external signal that never fires leaves the
`abort` listener subscribed — the subscription has NOT been released at
settle, contradicting the claim. -/
theorem listener_kept_after_settle :
    (fetchJSON 15000 1 600 true .quiet
      (fun _ => ⟨some 0, .reply ⟨200, "OK", some .null⟩⟩)).result = .success .null ∧
    listenersRemaining 15000 true .quiet
      (fun _ => ⟨some 0, .reply ⟨200, "OK", some .null⟩⟩)
      (fetchJSON 15000 1 600 true .quiet
        (fun _ => ⟨some 0, .reply ⟨200, "OK", some .null⟩⟩)) = 1 := ⟨rfl, rfl⟩

/-- C8 amended: once the call settles, zero deadline timers remain
pending (the `finally` clears each attempt's timer); but the
`externalCancel` subscription has been released at settle iff the
external signal has fired by then (its `once` listeners are removed on
fire, and only then) — in particular a supplied signal that never fires
leaves one abort listener per issued attempt subscribed. -/
theorem cleanup_invariants_amended (t r d : Nat) (hs : Bool) (ext : ExtBehavior)
    (srv : Nat → ServerEnv)
    (hsettle : (fetchJSON t r d hs ext srv).result ≠ .neverSettles) :
    (fetchJSON t r d hs ext srv).timersPending = 0 ∧
    (extFiredBySettle t hs ext srv (fetchJSON t r d hs ext srv).fetchCalls = true →
      listenersRemaining t hs ext srv (fetchJSON t r d hs ext srv) = 0) ∧
    (extFiredBySettle t hs ext srv (fetchJSON t r d hs ext srv).fetchCalls = false →
      listenersRemaining t hs ext srv (fetchJSON t r d hs ext srv) =
        (fetchJSON t r d hs ext srv).listenersAdded) ∧
    (hs = true → ext = .quiet →
      listenersRemaining t hs ext srv (fetchJSON t r d hs ext srv) =
        (fetchJSON t r d hs ext srv).fetchCalls) := by
  refine ⟨go_timersPending t r hs ext srv r 1, ?_, ?_, ?_⟩
  · intro h
    unfold listenersRemaining
    rw [if_pos h]
  · intro h
    unfold listenersRemaining
    rw [if_neg (by simp [h])]
  · intro h1 h2
    subst h1
    subst h2
    have hq : extFiredBySettle t true .quiet srv
        (fetchJSON t r d true .quiet srv).fetchCalls = false := rfl
    unfold listenersRemaining
    rw [if_neg (by simp [hq])]
    exact go_listeners_quiet t r srv r 1

/-- Witness for the amended C8: a settled call with a quiet supplied
signal has no pending timers and one remaining listener per attempt; and
in a run where the final attempt's response (at 2 ms) beats the scheduled
fire (at 10 ms into attempt 1), the signal has not fired by settle, so
every added listener is still subscribed. -/
theorem cleanup_invariants_amended_witness :
    (fetchJSON 15000 1 600 true .quiet
      (fun _ => ⟨some 0, .reply ⟨200, "OK", some .null⟩⟩)).timersPending = 0 ∧
    listenersRemaining 15000 true .quiet
      (fun _ => ⟨some 0, .reply ⟨200, "OK", some .null⟩⟩)
      (fetchJSON 15000 1 600 true .quiet
        (fun _ => ⟨some 0, .reply ⟨200, "OK", some .null⟩⟩)) =
      (fetchJSON 15000 1 600 true .quiet
        (fun _ => ⟨some 0, .reply ⟨200, "OK", some .null⟩⟩)).fetchCalls ∧
    listenersRemaining 15000 true (.firesAt 1 10)
      (fun _ => ⟨some 2, .reply ⟨200, "OK", some .null⟩⟩)
      (fetchJSON 15000 0 600 true (.firesAt 1 10)
        (fun _ => ⟨some 2, .reply ⟨200, "OK", some .null⟩⟩)) =
      (fetchJSON 15000 0 600 true (.firesAt 1 10)
        (fun _ => ⟨some 2, .reply ⟨200, "OK", some .null⟩⟩)).listenersAdded := by
  have hA := cleanup_invariants_amended 15000 1 600 true .quiet
    (fun _ => ⟨some 0, .reply ⟨200, "OK", some .null⟩⟩)
    (by intro hcon; exact absurd hcon (by simp [fetchJSON, go]))
  have hB := cleanup_invariants_amended 15000 0 600 true (.firesAt 1 10)
    (fun _ => ⟨some 2, .reply ⟨200, "OK", some .null⟩⟩)
    (by intro hcon; exact absurd hcon (by simp [fetchJSON, go]))
  exact ⟨hA.1, hA.2.2.2 rfl rfl, hB.2.2.1 rfl⟩

/-- C9: for every attempt `a` the loop actually reaches (every earlier
attempt failed transiently), if attempt `a`'s transport delivers a 2xx
response whose body fails to decode, the call fails on that first
occurrence with the decode rejection and issues no further transport
call — exactly `a` fetch calls in total, for every retry budget
admitting attempt `a`. -/
theorem malformed_2xx_fatal (t r d : Nat) (hs : Bool) (ext : ExtBehavior)
    (srv : Nat → ServerEnv) (a : Nat) (resp : Resp)
    (ha1 : 1 ≤ a) (ha2 : a ≤ r + 1)
    (hprev : ∀ i, 1 ≤ i → i < a →
      ∃ e, attemptResult t hs ext srv i = some (.failure e) ∧ isTransient e = true)
    (hdel : runFetch (fetchSignalFires hs t ext a) (srv a) = .delivered (.reply resp))
    (hok : respOk resp = true) (hbody : resp.bodyJson = none) :
    (fetchJSON t r d hs ext srv).result = .error (.raised .syntaxError) ∧
    (fetchJSON t r d hs ext srv).fetchCalls = a := by
  have hmal : attemptResult t hs ext srv a = some (.failure .syntaxError) := by
    unfold attemptResult
    rw [hdel]
    dsimp only
    simp [processDelivered, hok, hbody]
  have h := go_syntaxError_at t r hs ext srv a r 1 (by omega) ha1 ha2 hprev hmal
  show (go t r hs ext srv r 1).result = _ ∧ (go t r hs ext srv r 1).fetchCalls = a
  refine ⟨h.1, ?_⟩
  have h2 := h.2
  omega

/-- Witness for C9: a transient 503 on attempt 1 retried into a 200 with
an undecodable body on attempt 2 — the call fails there with the decode
rejection after exactly 2 fetch calls, with retry budget 1. -/
theorem malformed_2xx_fatal_witness :
    (fetchJSON 15000 1 600 false .quiet
      (fun i => if i == 1 then ⟨some 0, .reply ⟨503, "Service Unavailable", none⟩⟩
                else ⟨some 0, .reply ⟨200, "OK", none⟩⟩)).result =
      .error (.raised .syntaxError) ∧
    (fetchJSON 15000 1 600 false .quiet
      (fun i => if i == 1 then ⟨some 0, .reply ⟨503, "Service Unavailable", none⟩⟩
                else ⟨some 0, .reply ⟨200, "OK", none⟩⟩)).fetchCalls = 2 := by
  refine malformed_2xx_fatal 15000 1 600 false .quiet
    (fun i => if i == 1 then ⟨some 0, .reply ⟨503, "Service Unavailable", none⟩⟩
              else ⟨some 0, .reply ⟨200, "OK", none⟩⟩)
    2 ⟨200, "OK", none⟩ (by omega) (by omega) ?_ rfl rfl rfl
  intro i h1 h2
  have hi : i = 1 := by omega
  subst hi
  exact ⟨.httpError 503 ("HTTP " ++ toString 503 ++ " " ++ "Service Unavailable") none,
    rfl, rfl⟩

/-- C10: the headers attached to every attempt's request give per-request
`init` headers precedence over option headers, which take precedence over
the `Content-Type: application/json` default; the default survives when
neither overrides it. -/
theorem headers_precedence (optHeaders initHeaders : List (String × String))
    (attempt : Nat) :
    (∀ k v, headerValue initHeaders k = some v →
      headerValue (attemptRequestHeaders optHeaders initHeaders attempt) k = some v) ∧
    (∀ k v, headerValue initHeaders k = none → headerValue optHeaders k = some v →
      headerValue (attemptRequestHeaders optHeaders initHeaders attempt) k = some v) ∧
    (headerValue initHeaders "Content-Type" = none →
      headerValue optHeaders "Content-Type" = none →
      headerValue (attemptRequestHeaders optHeaders initHeaders attempt) "Content-Type" =
        some "application/json") := by
  refine ⟨?_, ?_, ?_⟩
  · intro k v h
    show headerValue ((("Content-Type", "application/json") :: optHeaders) ++ initHeaders) k = some v
    rw [headerValue_append, h]
  · intro k v hnone hv
    show headerValue ((("Content-Type", "application/json") :: optHeaders) ++ initHeaders) k = some v
    rw [headerValue_append, hnone]
    show headerValue ([("Content-Type", "application/json")] ++ optHeaders) k = some v
    rw [headerValue_append, hv]
  · intro hinit hopt
    show headerValue ((("Content-Type", "application/json") :: optHeaders) ++ initHeaders)
      "Content-Type" = some "application/json"
    rw [headerValue_append, hinit]
    show headerValue ([("Content-Type", "application/json")] ++ optHeaders)
      "Content-Type" = some "application/json"
    rw [headerValue_append, hopt]
    rfl

/-- Witness for C10: `init` headers override option headers, option
headers override the default, and the default survives otherwise. -/
theorem headers_precedence_witness :
    headerValue (attemptRequestHeaders [("X-A", "1"), ("Content-Type", "text/plain")]
      [("X-A", "2")] 1) "X-A" = some "2" ∧
    headerValue (attemptRequestHeaders [("X-A", "1"), ("Content-Type", "text/plain")]
      [("X-A", "2")] 1) "Content-Type" = some "text/plain" ∧
    headerValue (attemptRequestHeaders [("X-A", "1")] [] 1) "Content-Type" =
      some "application/json" :=
  ⟨(headers_precedence [("X-A", "1"), ("Content-Type", "text/plain")] [("X-A", "2")] 1).1
      "X-A" "2" rfl,
   (headers_precedence [("X-A", "1"), ("Content-Type", "text/plain")] [("X-A", "2")] 1).2.1
      "Content-Type" "text/plain" rfl rfl,
   (headers_precedence [("X-A", "1")] [] 1).2.2 rfl rfl⟩

end Http
